import Mathlib

/-!
Shallow embedding of the BhimLaw versioned-act registry:
`legal_acts_database.py` (ActRegistry), `legal_acts_version_control.py`
(VersionControl) and `legal_acts_updater.py` (UpdateReconciler).

Modelling conventions:
* SQLite tables become Lean lists of row structures; the `act_id` primary
  key of `legal_acts` is expressed, where a proof needs it, as a `Nodup`
  hypothesis on the stored ids.
* An act payload is a Python dict.  Every payload built by the repository
  has the twelve fixed fields of `_get_initial_acts_data`, plus optionally a
  `checksum` key (present exactly on dicts returned by `get_act`).  We model
  this as `ActCore` (the twelve fields) together with `ActData`, which either
  carries a checksum field or not.
* `_generate_checksum` is `md5(json.dumps(act_data, sort_keys=True))`.  We
  idealize the digest as injective: the digest value is represented by the
  canonical (section-key-sorted) form of the payload itself, so two payloads
  collide exactly when their canonical JSON serializations coincide.  The
  `checksum` column of a row therefore stores an `ActData` value.
* `json.dumps`/`json.loads` round-trips of sections and amendments through
  TEXT columns are the identity on our structured values.
* `CURRENT_TIMESTAMP` columns and `datetime.now()` values that no claim
  observes are dropped; where wall-clock data is observable it is passed in
  as an explicit parameter.
-/

/-- One entry of an act's `amendments` list.  The seed data and the priority
updates build 3-key dicts; `_apply_gazette_amendment` additionally sets
`sections_affected`, so that key is optional. -/
structure AmendEntry where
  date : String
  description : String
  notification : String
  sections_affected : Option (List String) := none
deriving DecidableEq, Repr

/-- The twelve fixed payload fields every act dict in the repository has
(see `_get_initial_acts_data` and `_parse_india_code_act`). -/
structure ActCore where
  act_id : String
  name : String
  year : Int
  sections : List (String × String)
  amendments : List AmendEntry
  last_updated : String
  source_url : String
  notification_number : String
  ministry : String
  category : String
  status : String
  version : String
deriving DecidableEq, Repr

/-- An act payload: the twelve core fields, with (`withCk`) or without
(`noCk`) a `checksum` entry.  Because the digest is modelled as the
canonical payload itself, the checksum entry again has type `ActData`. -/
inductive ActData : Type where
  | noCk (core : ActCore)
  | withCk (core : ActCore) (ck : ActData)
deriving DecidableEq, Repr

/-- The core fields of a payload. -/
def ActData.core : ActData → ActCore
  | .noCk c => c
  | .withCk c _ => c

/-- The payload's `checksum` entry, when present. -/
def ActData.ck : ActData → Option ActData
  | .noCk _ => none
  | .withCk _ d => some d

/-- Strings compare as in Python: lexicographically by code point. -/
def strLe (a b : String) : Bool := a ≤ b

/-- `sort_keys=True` ordering of a sections dict: bindings sorted by key
(a stable sort, modelled by insertion sort so that proofs can compute). -/
def sortSections (l : List (String × String)) : List (String × String) :=
  l.insertionSort (fun a b => strLe a.1 b.1 = true)

/-- Canonical form of a payload, our model of
`json.dumps(act_data, sort_keys=True)`: dict keys are sorted (only the
`sections` dict has data-dependent keys; the fixed payload keys and the keys
inside amendment entries are finite and structural).  The value stored under
the `checksum` key is an opaque digest and is kept verbatim. -/
def canonical : ActData → ActData
  | .noCk c => .noCk { c with sections := sortSections c.sections }
  | .withCk c d => .withCk { c with sections := sortSections c.sections } d

/-- `LegalActsDatabase._generate_checksum`:
`hashlib.md5(json.dumps(act_data, sort_keys=True).encode()).hexdigest()`,
with the digest idealized as injective (represented by the canonical
serialization itself). -/
def generateChecksum (act_data : ActData) : ActData :=
  canonical act_data

/-- One row of the `legal_acts` table (the columns read back by
`get_act`; the `created_at`/`updated_at` timestamp columns are not
observable by any claim and are dropped). -/
structure ActRow where
  act_id : String
  name : String
  year : Int
  sections : List (String × String)
  amendments : List AmendEntry
  last_updated : String
  source_url : String
  notification_number : String
  ministry : String
  category : String
  status : String
  version : String
  checksum : ActData
deriving DecidableEq, Repr

/-- One row of the `update_log` table (without the autoincrement id and the
`CURRENT_TIMESTAMP` column). -/
structure LogEntry where
  act_id : String
  update_type : String
  old_version : String
  new_version : String
  changes_summary : String
  update_source : String
deriving DecidableEq, Repr

/-- The registry store `legal_acts.db`: current act rows plus update log. -/
structure DBState where
  acts : List ActRow
  update_log : List LogEntry
deriving DecidableEq, Repr

/-- The empty registry. -/
def DBState.empty : DBState := ⟨[], []⟩

/-- Build the stored row for a payload and its computed checksum (the
column list of both the INSERT and the UPDATE in `add_or_update_act`). -/
def rowOf (p : ActData) (ck : ActData) : ActRow :=
  { act_id := p.core.act_id
    name := p.core.name
    year := p.core.year
    sections := p.core.sections
    amendments := p.core.amendments
    last_updated := p.core.last_updated
    source_url := p.core.source_url
    notification_number := p.core.notification_number
    ministry := p.core.ministry
    category := p.core.category
    status := p.core.status
    version := p.core.version
    checksum := ck }

/-- `LegalActsDatabase.add_or_update_act`.  Returns the Python return value
and the new store.  The `SELECT checksum, version ... WHERE act_id = ?`
fetches the first matching row; `UPDATE ... WHERE act_id = ?` rewrites every
row with that id (at most one under the primary-key invariant).  The
`except` branch is unreachable in the model: every `ActData` has all the
keys the function subscripts, and `json.dumps` cannot fail on them. -/
def addOrUpdateAct (s : DBState) (act_data : ActData) : Bool × DBState :=
  let checksum := generateChecksum act_data
  match s.acts.find? (fun r => r.act_id == act_data.core.act_id) with
  | some existing =>
      if existing.checksum = checksum then
        (false, s)
      else
        (true,
          { acts := s.acts.map (fun r =>
              if r.act_id == act_data.core.act_id then rowOf act_data checksum else r)
            update_log := s.update_log ++
              [{ act_id := act_data.core.act_id
                 update_type := "update"
                 old_version := existing.version
                 new_version := act_data.core.version
                 changes_summary := "Updated to latest version with amendments"
                 update_source := "system_update" }] })
  | none =>
      (true, { s with acts := s.acts ++ [rowOf act_data checksum] })

/-- The dict `get_act` rebuilds from a row: the twelve core fields plus the
stored `checksum` column. -/
def payloadOfRow (r : ActRow) : ActData :=
  .withCk
    { act_id := r.act_id
      name := r.name
      year := r.year
      sections := r.sections
      amendments := r.amendments
      last_updated := r.last_updated
      source_url := r.source_url
      notification_number := r.notification_number
      ministry := r.ministry
      category := r.category
      status := r.status
      version := r.version }
    r.checksum

/-- `LegalActsDatabase.get_act`: first row with the given id and
`status = 'active'`, rebuilt as a dict. -/
def getAct (s : DBState) (act_id : String) : Option ActData :=
  (s.acts.find? (fun r => r.act_id == act_id && r.status == "active")).map payloadOfRow

/-! ### JSON string serialization (for the length-based similarity score)

`_calculate_similarity` only consumes `len(json.dumps(sections, sort_keys))`,
so the serializer below is used for its literal string output.  It follows
CPython's `json.dumps` defaults (`ensure_ascii=True`, separators `", "` and
`": "`): printable ASCII is emitted verbatim, `"` and `\` are backslash
escaped, the C0 controls use the short escapes or `\u00XX`, and everything
outside `0x20..0x7e` becomes `\uXXXX` (surrogate pairs above `0xFFFF`). -/

/-- Lower-case hex digit. -/
def hexDigit (n : Nat) : Char :=
  if n < 10 then Char.ofNat (48 + n) else Char.ofNat (87 + n)

/-- Four lower-case hex digits, as in `\uXXXX`. -/
def hex4 (n : Nat) : String :=
  String.mk [hexDigit (n / 4096 % 16), hexDigit (n / 256 % 16),
             hexDigit (n / 16 % 16), hexDigit (n % 16)]

/-- `json.dumps` escaping of one character. -/
def escapeChar (c : Char) : String :=
  if c = Char.ofNat 34 then "\\\""
  else if c = Char.ofNat 92 then "\\\\"
  else if c = Char.ofNat 10 then "\\n"
  else if c = Char.ofNat 13 then "\\r"
  else if c = Char.ofNat 9 then "\\t"
  else if c = Char.ofNat 8 then "\\b"
  else if c = Char.ofNat 12 then "\\f"
  else if c.toNat < 32 ∨ c.toNat > 126 then
    if c.toNat < 65536 then "\\u" ++ hex4 c.toNat
    else
      "\\u" ++ hex4 (55296 + (c.toNat - 65536) / 1024) ++
      "\\u" ++ hex4 (56320 + (c.toNat - 65536) % 1024)
  else String.singleton c

/-- A JSON string literal. -/
def jsonStr (s : String) : String :=
  "\"" ++ String.join (s.data.map escapeChar) ++ "\""

/-- `json.dumps(sections, sort_keys=True)` for a `str -> str` dict. -/
def serializeSections (l : List (String × String)) : String :=
  "\x7b" ++
    String.intercalate ", "
      ((sortSections l).map (fun kv => jsonStr kv.1 ++ ": " ++ jsonStr kv.2)) ++
  "\x7d"

/-! ### Python `str(int)` and `int(str)` -/

/-- `str(n)` for a non-negative Python int: decimal digits via `Nat.digits`. -/
def pyStr (n : Nat) : String :=
  if n = 0 then "0" else String.mk ((Nat.digits 10 n).reverse.map Nat.digitChar)

/-- Value of a decimal digit run. -/
def digitsToNat (l : List Char) : Nat :=
  l.foldl (fun acc c => acc * 10 + (c.toNat - 48)) 0

/-- `int(s)`: `none` where CPython raises `ValueError`.  (CPython also
accepts signs, surrounding whitespace and underscores; the repository only
ever applies `int` to version components, so only digit runs are modelled as
parseable.) -/
def pyInt (s : String) : Option Nat :=
  if !s.data.isEmpty && s.data.all (fun c => c.isDigit) then
    some (digitsToNat s.data)
  else none

/-- `str.split` on one separator character, on the character list.  As in
Python, an explicit separator keeps empty runs and the result is never
empty. -/
def splitChar (sep : Char) : List Char → List (List Char)
  | [] => [[]]
  | c :: tl =>
      if c = sep then [] :: splitChar sep tl
      else
        match splitChar sep tl with
        | h :: t => (c :: h) :: t
        | [] => [[c]]

/-- `version.split(".")`. -/
def pySplitDot (s : String) : List String :=
  (splitChar (Char.ofNat 46) s.data).map String.mk

/-! ### VersionControl (`legal_acts_version_control.py`) -/

/-- One entry of a `differences` list as built by `_compare_sections`:
`added` carries `new_content` only, `deleted` carries `old_content` only,
`modified` carries both. -/
inductive Diff : Type where
  | added (sec : String) (new_content : String)
  | modified (sec : String) (old_content new_content : String)
  | deleted (sec : String) (old_content : String)
deriving DecidableEq, Repr

/-- Body of `_compare_sections`' first loop (over `new_sections.items()`):
a key present in `old_sections` with different content yields `modified`,
an absent key yields `added`.  Dict subscripts become `List.lookup`. -/
def diffNewPass (old_sections : List (String × String)) (kv : String × String) :
    Option Diff :=
  match old_sections.lookup kv.1 with
  | some old_content =>
      if old_content ≠ kv.2 then some (.modified kv.1 old_content kv.2) else none
  | none => some (.added kv.1 kv.2)

/-- Body of `_compare_sections`' second loop (over `old_sections`): a key
absent from `new_sections` yields `deleted`. -/
def diffOldPass (new_sections : List (String × String)) (kv : String × String) :
    Option Diff :=
  if (new_sections.lookup kv.1).isNone then some (.deleted kv.1 kv.2) else none

/-- `LegalActsVersionControl._compare_sections`: the first loop's entries
followed by the second loop's. -/
def compareSections (old_sections new_sections : List (String × String)) :
    List Diff :=
  new_sections.filterMap (diffNewPass old_sections) ++
  old_sections.filterMap (diffOldPass new_sections)

/-- `LegalActsVersionControl._calculate_similarity`: compares the lengths of
the key-sorted JSON serializations of the two acts' sections.  The division
is exact (modelled in `ℚ`); CPython's float division agrees on the equality
cases the claims state. -/
def calculateSimilarity (old_act new_act : ActData) : ℚ :=
  let old_content := serializeSections old_act.core.sections
  let new_content := serializeSections new_act.core.sections
  if old_content.length = 0 ∧ new_content.length = 0 then 1
  else
    let max_len := max old_content.length new_content.length
    let min_len := min old_content.length new_content.length
    if max_len > 0 then (min_len : ℚ) / (max_len : ℚ) else 0

/-- `LegalActsVersionControl._generate_comparison_summary`. -/
def generateComparisonSummary (differences : List Diff) : String :=
  if differences.isEmpty then "No differences found between versions"
  else
    let added := (differences.filter fun d => match d with | .added _ _ => true | _ => false).length
    let modified := (differences.filter fun d => match d with | .modified _ _ _ => true | _ => false).length
    let deleted := (differences.filter fun d => match d with | .deleted _ _ => true | _ => false).length
    String.intercalate ", "
      (((if added > 0 then [pyStr added ++ " sections added"] else []) ++
        (if modified > 0 then [pyStr modified ++ " sections modified"] else [])) ++
        (if deleted > 0 then [pyStr deleted ++ " sections deleted"] else []))

/-- One row of the `version_history` table.  The columns filled from
`version_info.get(...)` may be NULL. -/
structure VersionRow where
  version_id : String
  act_id : String
  version : String
  release_date : String
  amendment_type : String
  notification_number : Option String
  gazette_reference : Option String
  ministry : Option String
  summary : Option String
  sections_affected : List String
  checksum : String
deriving DecidableEq, Repr

/-- One row of the `version_comparison` table. -/
structure CompRow where
  comparison_id : String
  act_id : String
  old_version : String
  new_version : String
  comparison_date : String
  differences : List Diff
  similarity_score : ℚ
deriving DecidableEq, Repr

/-- The version-control store `legal_acts_version.db` (the tables the
claims observe). -/
structure VCState where
  version_history : List VersionRow
  version_comparison : List CompRow
deriving DecidableEq, Repr

/-- The empty version-control store. -/
def VCState.empty : VCState := ⟨[], []⟩

/-- The `version_info` dict passed to `create_version` (required keys are
plain, `.get(...)` keys optional). -/
structure VersionInfoD where
  version : String
  release_date : String
  amendment_type : String
  notification_number : Option String := none
  gazette_reference : Option String := none
  ministry : Option String := none
  summary : Option String := none
  sections_affected : List String := []
  checksum : String
deriving DecidableEq, Repr

/-- `LegalActsVersionControl.create_version`; `today` stands for
`datetime.now().strftime(Y-m-d-compact)` in the version id.  No code path in
the repository ever invokes this method. -/
def createVersion (vc : VCState) (act_id : String) (vi : VersionInfoD)
    (today : String) : String × VCState :=
  let version_id := act_id ++ "_" ++ vi.version ++ "_" ++ today
  (version_id,
    { vc with version_history := vc.version_history ++
        [{ version_id := version_id
           act_id := act_id
           version := vi.version
           release_date := vi.release_date
           amendment_type := vi.amendment_type
           notification_number := vi.notification_number
           gazette_reference := vi.gazette_reference
           ministry := vi.ministry
           summary := vi.summary
           sections_affected := vi.sections_affected
           checksum := vi.checksum }] })

/-- `LegalActsVersionControl.get_version_history`: rows for the act,
`ORDER BY release_date DESC`. -/
def getVersionHistory (vc : VCState) (act_id : String) : List VersionRow :=
  (vc.version_history.filter (fun r => r.act_id == act_id)).insertionSort
    (fun a b => strLe b.release_date a.release_date = true)

/-- The two databases together; `db` is `legal_acts.db`, `vc` is
`legal_acts_version.db`. -/
structure SystemState where
  db : DBState
  vc : VCState
deriving DecidableEq, Repr

/-- `add_or_update_act` on the combined state: the function body touches
only `legal_acts.db` (it never references the version-control module). -/
def sysUpsert (s : SystemState) (p : ActData) : Bool × SystemState :=
  let r := addOrUpdateAct s.db p
  (r.1, { s with db := r.2 })

/-- `LegalActsVersionControl._get_act_version`: "For now, get current
version from main database" — the requested version is ignored and the
current row is returned for both sides of a comparison. -/
def getActVersion (db : DBState) (act_id : String) (_version : String) :
    Option ActData :=
  getAct db act_id

/-- The dict returned by `compare_versions` on success. -/
structure Comparison where
  act_id : String
  old_version : String
  new_version : String
  comparison_date : String
  differences : List Diff
  similarity_score : ℚ
  summary : String
deriving DecidableEq, Repr

/-- `LegalActsVersionControl.compare_versions`; `now` stands for the
wall-clock timestamp used for `comparison_date` and the comparison id.
On a missing act it returns the `{"error": ...}` dict (modelled as
`Except.error`); otherwise it diffs the two resolved payloads, stores the
result via `_store_comparison` and returns it. -/
def compareVersions (s : SystemState) (act_id old_version new_version : String)
    (now : String) : Except String Comparison × SystemState :=
  match getActVersion s.db act_id old_version, getActVersion s.db act_id new_version with
  | some old_act, some new_act =>
      let differences := compareSections old_act.core.sections new_act.core.sections
      let similarity_score := calculateSimilarity old_act new_act
      let result : Comparison :=
        { act_id := act_id
          old_version := old_version
          new_version := new_version
          comparison_date := now
          differences := differences
          similarity_score := similarity_score
          summary := generateComparisonSummary differences }
      (Except.ok result,
        { s with vc := { s.vc with version_comparison := s.vc.version_comparison ++
            [{ comparison_id := "CMP_" ++ act_id ++ "_" ++ now
               act_id := act_id
               old_version := old_version
               new_version := new_version
               comparison_date := now
               differences := differences
               similarity_score := similarity_score }] } })
  | _, _ => (Except.error "One or both versions not found", s)

/-! ### UpdateReconciler (`legal_acts_updater.py`) -/

/-- Replace the core fields of a payload, keeping its `checksum` entry if it
has one (Python mutates the dict returned by `get_act` in place). -/
def ActData.withCore : ActData → ActCore → ActData
  | .noCk _, c => .noCk c
  | .withCk _ d, c => .withCk c d

/-- One entry of `_get_simulated_gazette_updates`, the argument shape of
`_apply_gazette_amendment`. -/
structure GazetteAmendment where
  act_id : String
  amendment_date : String
  notification_number : String
  description : String
  sections_affected : List String
deriving DecidableEq, Repr

/-- `LegalActsUpdater._apply_gazette_amendment`: fetch the act, append the
amendment to its `amendments` list, set `last_updated`, bump the minor
version component (`int(version_parts[1]) + 1` when the version has a dot,
else `1`), and push the dict back through `add_or_update_act`.  A
`ValueError` from `int(...)` lands in the `except` branch: `False`, no
write. -/
def applyGazetteAmendment (s : DBState) (amendment : GazetteAmendment) :
    Bool × DBState :=
  match getAct s amendment.act_id with
  | none => (false, s)
  | some act =>
      let amendments2 := act.core.amendments ++
        [{ date := amendment.amendment_date
           description := amendment.description
           notification := amendment.notification_number
           sections_affected := some amendment.sections_affected }]
      let version_parts := pySplitDot act.core.version
      if h : version_parts.length > 1 then
        match pyInt (version_parts.get ⟨1, h⟩) with
        | none => (false, s)
        | some k =>
            addOrUpdateAct s (act.withCore
              { act.core with
                  amendments := amendments2
                  last_updated := amendment.amendment_date
                  version := version_parts.headD "" ++ "." ++ pyStr (k + 1) })
      else
        addOrUpdateAct s (act.withCore
          { act.core with
              amendments := amendments2
              last_updated := amendment.amendment_date
              version := version_parts.headD "" ++ "." ++ pyStr 1 })

/-- One entry of the hard-coded `priority_updates` list in
`_update_priority_acts` (the keys of its `updates` dict). -/
structure PriorityUpdate where
  act_id : String
  last_updated : String
  version : String
  amendments : List AmendEntry
deriving DecidableEq, Repr

/-- The fixed `priority_updates` data of `_update_priority_acts`. -/
def priorityUpdates : List PriorityUpdate :=
  [{ act_id := "constitution_india_1950"
     last_updated := "2025-01-15"
     version := "2025.1"
     amendments := [{ date := "2025-01-15"
                      description := "Updated interpretation guidelines for digital rights"
                      notification := "CONST-2025-01" }] },
   { act_id := "environment_protection_act_1986"
     last_updated := "2025-01-20"
     version := "2025.1"
     amendments := [{ date := "2025-01-20"
                      description := "Enhanced climate change provisions and carbon credit framework"
                      notification := "ENV-2025-01" }] }]

/-- The per-item body of `_update_priority_acts`: fetch the act, merge the
update's amendments (skipping ones already present), overwrite
`last_updated` and `version`, and upsert. -/
def applyPriorityUpdate (s : DBState) (u : PriorityUpdate) : Bool × DBState :=
  match getAct s u.act_id with
  | none => (false, s)
  | some act =>
      let merged := u.amendments.foldl
        (fun acc na => if na ∈ acc then acc else acc ++ [na]) act.core.amendments
      addOrUpdateAct s (act.withCore
        { act.core with
            last_updated := u.last_updated
            version := u.version
            amendments := merged })

/-- `LegalActsUpdater._update_priority_acts`: runs the fixed updates in
order, counting how many upserts reported a change. -/
def updatePriorityActs (s : DBState) : Nat × DBState :=
  priorityUpdates.foldl
    (fun acc u =>
      let r := applyPriorityUpdate acc.2 u
      (acc.1 + (if r.1 then 1 else 0), r.2))
    (0, s)

/-- Result of `_fetch_and_update_act`. -/
inductive UpdateResult : Type where
  | updated
  | noChange
  | fetchFailed
deriving DecidableEq, Repr

/-- `act_id.replace(underscore, hyphen)`. -/
def slugOf (act_id : String) : String :=
  act_id.map (fun c => if c = Char.ofNat 95 then Char.ofNat 45 else c)

/-- `LegalActsUpdater._fetch_and_update_act`; `fetch` stands for
`_fetch_act_from_india_code` (one outbound HTTP GET, `none` on failure or
unparseable markup).  Returns the result, the number of fetch attempts
performed, and the new store. -/
def fetchAndUpdateAct (fetch : String → Option ActData) (s : DBState)
    (act_id : String) : UpdateResult × Nat × DBState :=
  let act_slug := slugOf act_id
  match fetch act_slug with
  | some act_data =>
      let r := addOrUpdateAct s act_data
      ((if r.1 then .updated else .noChange), 1, r.2)
  | none => (.fetchFailed, 1, s)

/-- The dict returned by `check_for_updates`. -/
inductive CheckResult : Type where
  | errNotFound (act_id : String)
  | errOther
  | fresh (act_id : String) (days_since_update : Int) (current_version : String)
  | stale (act_id : String) (days_since_update : Int) (update_result : UpdateResult)
deriving DecidableEq, Repr

/-- `LegalActsUpdater.check_for_updates`.  `daysSince` stands for
`(datetime.now() - datetime.strptime(last_updated, Y-m-d)).days`, with
`none` for a `ValueError` from `strptime` (which the `except` branch turns
into an error dict).  Older than 30 days triggers exactly one
`_fetch_and_update_act`; otherwise no network call is made. -/
def checkForUpdates (daysSince : String → Option Int)
    (fetch : String → Option ActData) (s : DBState) (act_id : String) :
    CheckResult × Nat × DBState :=
  match getAct s act_id with
  | none => (.errNotFound act_id, 0, s)
  | some act =>
      match daysSince act.core.last_updated with
      | none => (.errOther, 0, s)
      | some days =>
          if days > 30 then
            let r := fetchAndUpdateAct fetch s act_id
            (.stale act_id days r.1, r.2.1, r.2.2)
          else
            (.fresh act_id days act.core.version, 0, s)

/-! ### Invariant vocabulary -/

/-- The status set of the §3 data model. -/
def statusOk (s : String) : Bool :=
  s == "active" || s == "repealed" || s == "amended"

/-- A nonempty all-digit string. -/
def isDigitStr (s : String) : Bool :=
  !s.data.isEmpty && s.data.all (fun c => c.isDigit)

/-- `version` matches the pattern `<year>.<int>`: two nonempty digit runs
separated by one dot. -/
def versionOk (v : String) : Bool :=
  match pySplitDot v with
  | [y, n] => isDigitStr y && isDigitStr n
  | _ => false

/-- The `<year>.<int>` / status invariant over a whole store. -/
def DBState.allWF (s : DBState) : Prop :=
  ∀ r ∈ s.acts, statusOk r.status = true ∧ versionOk r.version = true

/-- A payload whose status and version satisfy the §3 invariant. -/
def actWF (p : ActData) : Prop :=
  statusOk p.core.status = true ∧ versionOk p.core.version = true

/-- The `act_id` primary-key constraint of the `legal_acts` table. -/
def DBState.idsNodup (s : DBState) : Prop :=
  (s.acts.map (fun r => r.act_id)).Nodup

/-- A row is the image of some upserted payload: its columns are that
payload's fields, its checksum column the digest computed from it, and its
sections dict (being a Python dict) has no duplicate keys.  Every row ever
written by `add_or_update_act` has this shape. -/
def rowConsistent (r : ActRow) : Prop :=
  ∃ q : ActData, rowOf q r.checksum = r ∧ r.checksum = generateChecksum q ∧
    (q.core.sections.map Prod.fst).Nodup

/-- All rows of the store were produced by upserts. -/
def DBState.consistent (s : DBState) : Prop :=
  ∀ r ∈ s.acts, rowConsistent r

/-- The operations C9 quantifies over: a registry upsert, one gazette
amendment, one pass of the priority-update routine. -/
inductive RegistryOp : Type where
  | upsert (p : ActData)
  | gazette (a : GazetteAmendment)
  | priority
deriving DecidableEq, Repr

/-- State transition of one operation. -/
def runOp (s : DBState) (op : RegistryOp) : DBState :=
  match op with
  | .upsert p => (addOrUpdateAct s p).2
  | .gazette a => (applyGazetteAmendment s a).2
  | .priority => (updatePriorityActs s).2

/-- Run a sequence of operations. -/
def runOps (s : DBState) (ops : List RegistryOp) : DBState :=
  ops.foldl runOp s

/-! ### Concrete test data (used by witnesses and counterexamples) -/

/-- A representative seed-style payload (cf. the `rti_act_2005` entry of
`_get_initial_acts_data`). -/
def sampleCore : ActCore :=
  { act_id := "rti_act_2005"
    name := "Right to Information Act"
    year := 2005
    sections := [("Section 6", "Request for obtaining information")]
    amendments := []
    last_updated := "2025-01-10"
    source_url := "https://www.indiacode.nic.in/rti-act-2005"
    notification_number := "RTI-2025-01"
    ministry := "Department of Personnel and Training"
    category := "Transparency Law"
    status := "active"
    version := "2025.1" }

/-- The sample payload as upserted (no `checksum` key). -/
def sampleAct : ActData := .noCk sampleCore

/-- Store holding just the sample act. -/
def sampleState1 : DBState := (addOrUpdateAct DBState.empty sampleAct).2

/-- What `get_act` returns for the sample act. -/
def sampleGot : ActData := .withCk sampleCore (generateChecksum sampleAct)

/-- The sample payload with one modified section and a bumped version. -/
def sampleCoreV2 : ActCore :=
  { sampleCore with
      sections := [("Section 6", "Electronic filing of requests")]
      version := "2025.2" }

/-- Second revision of the sample act. -/
def sampleActV2 : ActData := .noCk sampleCoreV2

/-- Store after upserting the sample act and then its revision. -/
def sampleState2 : DBState := (addOrUpdateAct sampleState1 sampleActV2).2

/-- A payload with an empty `act_id` (C4's invalid input). -/
def emptyIdAct : ActData := .noCk { sampleCore with act_id := "" }

/-- A valid payload whose status is not `active`. -/
def repealedAct : ActData := .noCk { sampleCore with status := "repealed" }

/-- A payload violating the §3 status/version invariant. -/
def badAct : ActData := .noCk { sampleCore with status := "draft", version := "latest" }

/-- The current snapshot of Scenario D's act: section S1 already holds the
new content "B" under version 1.1. -/
def c3Core : ActCore :=
  { act_id := "act1"
    name := "Act One"
    year := 2020
    sections := [("S1", "B")]
    amendments := []
    last_updated := "2025-01-01"
    source_url := "u"
    notification_number := "n"
    ministry := "m"
    category := "c"
    status := "active"
    version := "1.1" }

/-- Scenario D's act payload. -/
def c3Act : ActData := .noCk c3Core

/-- Combined state with no version-control rows. -/
def sysEmpty : SystemState := ⟨DBState.empty, VCState.empty⟩

/-- Combined state holding Scenario D's act. -/
def c3System : SystemState := ⟨(addOrUpdateAct DBState.empty c3Act).2, VCState.empty⟩

/-- Combined state after Scenario B's two upserts. -/
def c2System : SystemState := (sysUpsert (sysUpsert sysEmpty sampleAct).2 sampleActV2).2

/-- A gazette amendment for the sample act. -/
def sampleGA : GazetteAmendment :=
  { act_id := "rti_act_2005"
    amendment_date := "2025-02-02"
    notification_number := "RTI-2025-02"
    description := "Penalty update"
    sections_affected := ["Section 6"] }

/-- A clock oracle reporting every act as updated 10 days ago. -/
def daysSince10 : String → Option Int := fun _ => some 10

/-- A clock oracle reporting every act as updated 40 days ago. -/
def daysSince40 : String → Option Int := fun _ => some 40

/-- A fetch oracle whose every attempt fails. -/
def fetchNone : String → Option ActData := fun _ => none


/-- Act whose sections play the "old" side in the C6 witness. -/
def c6old : ActData := .noCk { c3Core with sections := [("S1", "A"), ("S2", "x")] }

/-- Act whose sections play the "new" side in the C6 witness: S1 modified,
S2 deleted, S3 added. -/
def c6new : ActData := .noCk { c3Core with sections := [("S1", "B"), ("S3", "y")] }

/-! ## Helper lemmas -/

theorem rowOf_act_id (p : ActData) (ck : ActData) :
    (rowOf p ck).act_id = p.core.act_id := rfl

theorem rowOf_checksum (p : ActData) (ck : ActData) :
    (rowOf p ck).checksum = ck := rfl

/-- The row-replacement function of the UPDATE branch leaves the
id-match predicate invariant. -/
theorem upsert_pred_comp (p : ActData) (ck : ActData) :
    ((fun r : ActRow => r.act_id == p.core.act_id) ∘
      (fun r => if r.act_id == p.core.act_id then rowOf p ck else r)) =
    (fun r : ActRow => r.act_id == p.core.act_id) := by
  funext r
  by_cases h : r.act_id = p.core.act_id <;> simp [h, rowOf]

/-- `find?` by act id commutes with the UPDATE branch's row replacement. -/
theorem find?_upsert_map (l : List ActRow) (p : ActData) (ck : ActData) :
    (l.map (fun r => if r.act_id == p.core.act_id then rowOf p ck else r)).find?
      (fun r => r.act_id == p.core.act_id) =
    (l.find? (fun r => r.act_id == p.core.act_id)).map
      (fun r => if r.act_id == p.core.act_id then rowOf p ck else r) := by
  rw [List.find?_map, upsert_pred_comp]

/-! ## C1 -/

/-- C1: upsert is idempotent on identical payloads: immediately re-upserting
the same payload returns `changed = false` and leaves the store (rows and
update log) untouched, because the recomputed checksum equals the stored
one. -/
theorem claim_C1_upsert_idempotent (s : DBState) (p : ActData) :
    addOrUpdateAct (addOrUpdateAct s p).2 p = (false, (addOrUpdateAct s p).2) := by
  rcases hf : s.acts.find? (fun r => r.act_id == p.core.act_id) with _ | existing
  · have hs2 : addOrUpdateAct s p =
        (true, { s with acts := s.acts ++ [rowOf p (generateChecksum p)] }) := by
      simp [addOrUpdateAct, hf]
    rw [hs2]
    simp [addOrUpdateAct, List.find?_append, hf, rowOf]
  · by_cases hc : existing.checksum = generateChecksum p
    · have hs2 : addOrUpdateAct s p = (false, s) := by
        simp [addOrUpdateAct, hf, hc]
      rw [hs2]
      simp [addOrUpdateAct, hf, hc]
    · have hpred := List.find?_some hf
      have hs2 : addOrUpdateAct s p =
          (true,
            { acts := s.acts.map (fun r =>
                if r.act_id == p.core.act_id then rowOf p (generateChecksum p) else r)
              update_log := s.update_log ++
                [{ act_id := p.core.act_id
                   update_type := "update"
                   old_version := existing.version
                   new_version := p.core.version
                   changes_summary := "Updated to latest version with amendments"
                   update_source := "system_update" }] }) := by
        simp [addOrUpdateAct, hf, hc]
      rw [hs2]
      unfold addOrUpdateAct
      simp only [find?_upsert_map, hf, Option.map_some]
      have heq : existing.act_id = p.core.act_id := by simpa using hpred
      simp [heq, rowOf]

/-! ## C10 -/

/-- A payload is never its own checksum entry (structural: the value under
the `checksum` key is strictly smaller than the whole dict). -/
theorem withCk_ne_self (c : ActCore) (d : ActData) : ActData.withCk c d ≠ d := by
  intro h
  have hs := congrArg sizeOf h
  simp at hs

/-- The checksum recomputed from a `get_act` result never equals the stored
checksum: the retrieved dict contains the stored digest under its
`checksum` key, so the serialization fed to the digest strictly contains
the old digest. -/
theorem checksum_of_got_ne (r : ActRow) :
    generateChecksum (payloadOfRow r) ≠ r.checksum := by
  intro h
  simp only [generateChecksum, payloadOfRow, canonical] at h
  exact withCk_ne_self _ _ h

/-- Under the `act_id` primary key, the row `get_act` locates (by id and
active status) is also the row `add_or_update_act` locates (by id alone). -/
theorem find?_id_of_find?_active (l : List ActRow) (a : String)
    (hnd : (l.map (fun r => r.act_id)).Nodup) (row : ActRow)
    (h : l.find? (fun r => r.act_id == a && r.status == "active") = some row) :
    l.find? (fun r => r.act_id == a) = some row := by
  induction l with
  | nil => simp at h
  | cons hd tl ih =>
    simp only [List.map_cons, List.nodup_cons] at hnd
    by_cases hid : (hd.act_id == a) = true
    · by_cases hact : (hd.status == "active") = true
      · rw [List.find?_cons] at h ⊢
        simp only [hid, hact, Bool.and_self] at h ⊢
        exact h
      · rw [List.find?_cons] at h
        simp only [hid, hact, Bool.and_false, Bool.true_and] at h
        exfalso
        have hmem := List.mem_of_find?_eq_some h
        have hrow := List.find?_some h
        have hrowa : row.act_id = a := by
          have := (Bool.and_eq_true _ _).mp hrow
          simpa using this.1
        have hhda : hd.act_id = a := by simpa using hid
        exact hnd.1 (hhda ▸ hrowa ▸ List.mem_map_of_mem (fun r => r.act_id) hmem)
    · rw [List.find?_cons] at h ⊢
      simp only [hid, Bool.false_and] at h ⊢
      exact ih hnd.2 h

/-- C10: re-upserting the exact payload returned by `get_act` is never a
no-op.  The retrieved dict carries the stored `checksum` field, which is
digested into the new checksum but was absent from (or differs inside) the
serialization that produced the stored one, so the digests differ: the
upsert takes the update path, returns `changed = true` and appends an
`UpdateLogEntry`. -/
theorem claim_C10_get_then_reupsert_changes (s : DBState) (a : String) (g : ActData)
    (hnd : s.idsNodup) (hget : getAct s a = some g) :
    ∃ row : ActRow,
      s.acts.find? (fun r => r.act_id == g.core.act_id) = some row ∧
      generateChecksum g ≠ row.checksum ∧
      addOrUpdateAct s g =
        (true,
          { acts := s.acts.map (fun r =>
              if r.act_id == g.core.act_id then rowOf g (generateChecksum g) else r)
            update_log := s.update_log ++
              [{ act_id := g.core.act_id
                 update_type := "update"
                 old_version := row.version
                 new_version := g.core.version
                 changes_summary := "Updated to latest version with amendments"
                 update_source := "system_update" }] }) := by
  simp only [getAct, Option.map_eq_some'] at hget
  obtain ⟨row, hfind, hrow⟩ := hget
  have hpred := List.find?_some hfind
  have hida : row.act_id = a := by
    have := (Bool.and_eq_true _ _).mp hpred
    simpa using this.1
  have hg : g.core.act_id = row.act_id := by
    subst hrow
    rfl
  have hfind1 : s.acts.find? (fun r => r.act_id == g.core.act_id) = some row := by
    rw [hg, hida]
    exact find?_id_of_find?_active s.acts a hnd row hfind
  have hne : generateChecksum g ≠ row.checksum := by
    subst hrow
    exact checksum_of_got_ne row
  refine ⟨row, hfind1, hne, ?_⟩
  simp only [addOrUpdateAct, hfind1]
  rw [if_neg (fun hh => hne hh.symm)]

/-- Witness for C10 on a one-act store. -/
theorem claim_C10_witness :
    DBState.idsNodup sampleState1 ∧
    getAct sampleState1 "rti_act_2005" = some sampleGot ∧
    ∃ row : ActRow,
      sampleState1.acts.find? (fun r => r.act_id == sampleGot.core.act_id) = some row ∧
      generateChecksum sampleGot ≠ row.checksum ∧
      addOrUpdateAct sampleState1 sampleGot =
        (true,
          { acts := sampleState1.acts.map (fun r =>
              if r.act_id == sampleGot.core.act_id then rowOf sampleGot (generateChecksum sampleGot) else r)
            update_log := sampleState1.update_log ++
              [{ act_id := sampleGot.core.act_id
                 update_type := "update"
                 old_version := row.version
                 new_version := sampleGot.core.version
                 changes_summary := "Updated to latest version with amendments"
                 update_source := "system_update" }] }) :=
  ⟨by unfold DBState.idsNodup; decide, by decide,
    claim_C10_get_then_reupsert_changes sampleState1 "rti_act_2005" sampleGot
      (by unfold DBState.idsNodup; decide) (by decide)⟩

/-! ## C4 -/

/-- C4 counterexample: a payload with an empty `act_id` raises no
`ValidationError` — `add_or_update_act` runs to completion, inserts the row
and returns `True`, so the act table does not stay unchanged. -/
theorem claim_C4_counterexample :
    addOrUpdateAct DBState.empty emptyIdAct =
      (true, { acts := [rowOf emptyIdAct (generateChecksum emptyIdAct)], update_log := [] }) ∧
    (addOrUpdateAct DBState.empty emptyIdAct).2.acts ≠ DBState.empty.acts := by
  constructor
  · decide
  · decide

/-- C4 (amended): upsert performs no payload validation at all.  A payload
with an empty `act_id` is handled like any other: with no matching row it is
inserted and the call returns `True`, mutating the act table and raising
nothing. -/
theorem claim_C4_no_validation (s : DBState) (p : ActData)
    (hid : p.core.act_id = "")
    (hf : s.acts.find? (fun r => r.act_id == p.core.act_id) = none) :
    addOrUpdateAct s p =
      (true, { s with acts := s.acts ++ [rowOf p (generateChecksum p)] }) := by
  simp [addOrUpdateAct, hf]

/-- Witness for C4 (amended) on the empty store. -/
theorem claim_C4_witness :
    emptyIdAct.core.act_id = "" ∧
    DBState.empty.acts.find? (fun r => r.act_id == emptyIdAct.core.act_id) = none ∧
    addOrUpdateAct DBState.empty emptyIdAct =
      (true, { DBState.empty with
                 acts := DBState.empty.acts ++ [rowOf emptyIdAct (generateChecksum emptyIdAct)] }) :=
  ⟨rfl, rfl, claim_C4_no_validation DBState.empty emptyIdAct rfl rfl⟩

/-! ## C5 -/

/-- C5 counterexample: upserting a previously unseen `act_id` inserts the
row and returns `True`, but appends nothing to the update log (the INSERT
branch of `add_or_update_act` has no `INSERT INTO update_log`). -/
theorem claim_C5_counterexample :
    (addOrUpdateAct DBState.empty sampleAct).1 = true ∧
    (addOrUpdateAct DBState.empty sampleAct).2.acts ≠ [] ∧
    (addOrUpdateAct DBState.empty sampleAct).2.update_log = [] := by
  refine ⟨by decide, by decide, by decide⟩

/-- C5 (amended): a new `act_id` is inserted with `changed = true` but no
update-log entry; an existing `act_id` with differing checksum is updated
and an `UpdateLogEntry` recording `old_version`/`new_version` is appended. -/
theorem claim_C5_upsert_logging (s : DBState) (p : ActData) :
    (s.acts.find? (fun r => r.act_id == p.core.act_id) = none →
      addOrUpdateAct s p =
        (true, { s with acts := s.acts ++ [rowOf p (generateChecksum p)] })) ∧
    (∀ row : ActRow,
      s.acts.find? (fun r => r.act_id == p.core.act_id) = some row →
      row.checksum ≠ generateChecksum p →
      addOrUpdateAct s p =
        (true,
          { acts := s.acts.map (fun r =>
              if r.act_id == p.core.act_id then rowOf p (generateChecksum p) else r)
            update_log := s.update_log ++
              [{ act_id := p.core.act_id
                 update_type := "update"
                 old_version := row.version
                 new_version := p.core.version
                 changes_summary := "Updated to latest version with amendments"
                 update_source := "system_update" }] })) := by
  constructor
  · intro hf
    simp [addOrUpdateAct, hf]
  · intro row hf hc
    simp [addOrUpdateAct, hf, hc]

/-- Witness for C5 (amended): both the insert branch (empty store) and the
update branch (revised payload over the sample store). -/
theorem claim_C5_witness :
    (addOrUpdateAct DBState.empty sampleAct =
      (true, { DBState.empty with
                 acts := DBState.empty.acts ++ [rowOf sampleAct (generateChecksum sampleAct)] })) ∧
    (addOrUpdateAct sampleState1 sampleActV2 =
      (true,
        { acts := sampleState1.acts.map (fun r =>
            if r.act_id == sampleActV2.core.act_id then rowOf sampleActV2 (generateChecksum sampleActV2) else r)
          update_log := sampleState1.update_log ++
            [{ act_id := sampleActV2.core.act_id
               update_type := "update"
               old_version := (rowOf sampleAct (generateChecksum sampleAct)).version
               new_version := sampleActV2.core.version
               changes_summary := "Updated to latest version with amendments"
               update_source := "system_update" }] })) :=
  ⟨(claim_C5_upsert_logging DBState.empty sampleAct).1 rfl,
   (claim_C5_upsert_logging sampleState1 sampleActV2).2
     (rowOf sampleAct (generateChecksum sampleAct)) (by decide) (by decide)⟩

/-! ## Lookup lemmas (Python dict semantics over assoc lists) -/

theorem lookup_mem : ∀ {l : List (String × String)} {k v : String},
    l.lookup k = some v → (k, v) ∈ l := by
  intro l
  induction l with
  | nil => intro k v h; simp [List.lookup] at h
  | cons hd tl ih =>
    intro k v h
    rcases hd with ⟨a, b⟩
    by_cases hk : (k == a) = true
    · simp only [List.lookup, hk] at h
      have ha : k = a := by simpa using hk
      simp only [Option.some.injEq] at h
      subst ha
      subst h
      exact List.mem_cons_self _ _
    · have hkf : (k == a) = false := by simpa using hk
      simp only [List.lookup, hkf] at h
      exact List.mem_cons_of_mem _ (ih h)

theorem lookup_eq_none_iff : ∀ {l : List (String × String)} {k : String},
    l.lookup k = none ↔ k ∉ l.map Prod.fst := by
  intro l
  induction l with
  | nil => intro k; simp [List.lookup]
  | cons hd tl ih =>
    intro k
    rcases hd with ⟨a, b⟩
    by_cases hk : (k == a) = true
    · have ha : k = a := by simpa using hk
      simp [List.lookup, hk, ha]
    · have hkf : (k == a) = false := by simpa using hk
      have ha : ¬k = a := by simpa using hk
      simp [List.lookup, hkf, ha, ih]

theorem lookup_of_mem_nodup : ∀ {l : List (String × String)} {k v : String},
    (l.map Prod.fst).Nodup → (k, v) ∈ l → l.lookup k = some v := by
  intro l
  induction l with
  | nil => intro k v _ h; simp at h
  | cons hd tl ih =>
    intro k v hnd h
    rcases hd with ⟨a, b⟩
    simp only [List.map_cons, List.nodup_cons] at hnd
    rcases List.mem_cons.mp h with h1 | h2
    · obtain ⟨hka, hvb⟩ := Prod.mk.injEq .. ▸ h1
      subst hka
      subst hvb
      simp [List.lookup]
    · have hka : ¬k = a := by
        intro hh
        subst hh
        exact hnd.1 (List.mem_map_of_mem Prod.fst h2 :)
      have hkf : (k == a) = false := by simpa using hka
      simp only [List.lookup, hkf]
      exact ih hnd.2 h2

/-- Permuting an assoc list with distinct keys does not change lookups. -/
theorem lookup_eq_of_perm {l1 l2 : List (String × String)}
    (h : l1.Perm l2) (hnd : (l1.map Prod.fst).Nodup) (k : String) :
    l1.lookup k = l2.lookup k := by
  have hnd2 : (l2.map Prod.fst).Nodup := ((h.map Prod.fst).nodup_iff).mp hnd
  rcases hl : l1.lookup k with _ | v
  · rcases hl2 : l2.lookup k with _ | v2
    · rfl
    · exfalso
      have hm := lookup_mem hl2
      have : l1.lookup k = some v2 := lookup_of_mem_nodup hnd (h.mem_iff.mpr hm)
      rw [hl] at this
      exact Option.noConfusion this
  · have hm := lookup_mem hl
    exact (lookup_of_mem_nodup hnd2 (h.mem_iff.mp hm)).symm

/-! ## Checksum-consistency invariant -/

/-- The empty store is consistent. -/
theorem consistent_empty : DBState.consistent DBState.empty := by
  intro r hr
  simp [DBState.empty] at hr

/-- `add_or_update_act` only ever writes rows of the consistent shape. -/
theorem upsert_preserves_consistent (s : DBState) (p : ActData)
    (hs : DBState.consistent s) (hp : (p.core.sections.map Prod.fst).Nodup) :
    DBState.consistent (addOrUpdateAct s p).2 := by
  rcases hf : s.acts.find? (fun r => r.act_id == p.core.act_id) with _ | existing
  · intro r hr
    have hacts : (addOrUpdateAct s p).2.acts =
        s.acts ++ [rowOf p (generateChecksum p)] := by
      simp [addOrUpdateAct, hf]
    rw [hacts] at hr
    rcases List.mem_append.mp hr with h1 | h2
    · exact hs r h1
    · simp only [List.mem_singleton] at h2
      subst h2
      exact ⟨p, rfl, rfl, hp⟩
  · by_cases hc : existing.checksum = generateChecksum p
    · have hst : (addOrUpdateAct s p).2 = s := by
        simp [addOrUpdateAct, hf, hc]
      rw [hst]
      exact hs
    · intro r hr
      have hacts : (addOrUpdateAct s p).2.acts = s.acts.map (fun r0 =>
          if r0.act_id == p.core.act_id then rowOf p (generateChecksum p) else r0) := by
        simp [addOrUpdateAct, hf, hc]
      rw [hacts] at hr
      obtain ⟨r0, hr0, hfr⟩ := List.mem_map.mp hr
      by_cases hid : (r0.act_id == p.core.act_id) = true
      · rw [if_pos hid] at hfr
        subst hfr
        exact ⟨p, rfl, rfl, hp⟩
      · rw [if_neg hid] at hfr
        subst hfr
        exact hs r0 hr0

/-- Components of canonical-form (i.e. digest) equality. -/
theorem canonical_core_eq {p q : ActData} (h : canonical p = canonical q) :
    sortSections p.core.sections = sortSections q.core.sections ∧
    p.core.amendments = q.core.amendments ∧
    p.core.status = q.core.status := by
  have hcc : ({ p.core with sections := sortSections p.core.sections } : ActCore) =
             { q.core with sections := sortSections q.core.sections } := by
    cases p <;> cases q <;> simp_all [canonical, ActData.core]
  refine ⟨?_, ?_, ?_⟩
  · have hh := congrArg ActCore.sections hcc
    simpa using hh
  · have hh := congrArg ActCore.amendments hcc
    simpa using hh
  · have hh := congrArg ActCore.status hcc
    simpa using hh

/-- A `find?` hit for a weaker predicate that also satisfies a stronger
predicate implying it is a hit for the stronger predicate too. -/
theorem find?_stronger (l : List ActRow) (p1 p2 : ActRow → Bool)
    (himp : ∀ r, p2 r = true → p1 r = true) (row : ActRow)
    (h : l.find? p1 = some row) (h2 : p2 row = true) :
    l.find? p2 = some row := by
  induction l with
  | nil => simp at h
  | cons hd tl ih =>
    rw [List.find?_cons] at h ⊢
    by_cases h1 : p1 hd = true
    · simp only [h1, Option.some.injEq] at h
      subst h
      simp [h2]
    · have h1f : p1 hd = false := by simpa using h1
      have h2f : p2 hd = false := by
        rcases hpd : p2 hd with _ | _
        · rfl
        · exact absurd (himp hd hpd) (by simp [h1f])
      simp only [h1f] at h
      simp only [h2f]
      exact ih h

/-! ## C7 -/

/-- Insertion sort is a permutation (specialized to section dicts). -/
theorem sortSections_perm (l : List (String × String)) :
    (sortSections l).Perm l :=
  List.perm_insertionSort _ l

/-- C7 counterexample: for a valid payload whose status is `repealed`,
`get_act` right after the upsert returns nothing at all (its query filters
on `status = 'active'`), so the round-trip fails. -/
theorem claim_C7_counterexample :
    addOrUpdateAct DBState.empty repealedAct =
      (true, { acts := [rowOf repealedAct (generateChecksum repealedAct)], update_log := [] }) ∧
    getAct (addOrUpdateAct DBState.empty repealedAct).2 repealedAct.core.act_id = none := by
  refine ⟨by decide, by decide⟩

/-- C7 (amended): for every act payload with status `active` (and with the
duplicate-free section keys every Python dict has), `get_act` immediately
after `add_or_update_act` returns a dict whose sections map (as a key-value
map) and amendments list are identical to the upserted payload's — over any
store whose rows were produced by upserts (checksum-consistent states). -/
theorem claim_C7_roundtrip (s : DBState) (p : ActData)
    (hcons : DBState.consistent s)
    (hp : (p.core.sections.map Prod.fst).Nodup)
    (hactive : p.core.status = "active") :
    ∃ g : ActData,
      getAct (addOrUpdateAct s p).2 p.core.act_id = some g ∧
      (∀ k, g.core.sections.lookup k = p.core.sections.lookup k) ∧
      g.core.amendments = p.core.amendments := by
  rcases hf : s.acts.find? (fun r => r.act_id == p.core.act_id) with _ | existing
  · -- INSERT branch: the new row is returned verbatim.
    have hacts : (addOrUpdateAct s p).2.acts =
        s.acts ++ [rowOf p (generateChecksum p)] := by
      simp [addOrUpdateAct, hf]
    refine ⟨payloadOfRow (rowOf p (generateChecksum p)), ?_, fun k => rfl, rfl⟩
    have hnone : s.acts.find?
        (fun r => r.act_id == p.core.act_id && r.status == "active") = none := by
      rw [List.find?_eq_none] at hf ⊢
      intro x hx hpx
      exact hf x hx ((Bool.and_eq_true _ _).mp hpx).1
    have hpred : ((rowOf p (generateChecksum p)).act_id == p.core.act_id &&
        (rowOf p (generateChecksum p)).status == "active") = true := by
      simp [rowOf, hactive]
    simp only [getAct, hacts, List.find?_append, hnone, Option.none_or]
    simp [List.find?_cons, hpred]
  · by_cases hc : existing.checksum = generateChecksum p
    · -- no-op branch: the stored row came from a payload with the same
      -- canonical serialization, hence the same sections map and amendments.
      have hst : (addOrUpdateAct s p).2 = s := by
        simp [addOrUpdateAct, hf, hc]
      obtain ⟨q, hrowq, hckq, hqnd⟩ := hcons existing (List.mem_of_find?_eq_some hf)
      have hcanon : canonical q = canonical p := by
        have hgen : generateChecksum q = generateChecksum p := by
          rw [← hckq, hc]
        simpa [generateChecksum] using hgen
      obtain ⟨hsec, hamend, hstat⟩ := canonical_core_eq hcanon
      have hqsec : existing.sections = q.core.sections := by
        rw [← hrowq]
        rfl
      have hqamend : existing.amendments = q.core.amendments := by
        rw [← hrowq]
        rfl
      have hstatus : existing.status = "active" := by
        have hqstat : existing.status = q.core.status := by
          rw [← hrowq]
          rfl
        rw [hqstat, hstat, hactive]
      have hfind2 : s.acts.find?
          (fun r => r.act_id == p.core.act_id && r.status == "active") = some existing := by
        refine find?_stronger s.acts _ _ (fun r hr => ((Bool.and_eq_true _ _).mp hr).1)
          existing hf ?_
        have hpred := List.find?_some hf
        simp [hpred, hstatus]
      have hqp : q.core.sections.Perm p.core.sections := by
        have h1 : q.core.sections.Perm (sortSections q.core.sections) :=
          (sortSections_perm _).symm
        rw [hsec] at h1
        exact h1.trans (sortSections_perm _)
      refine ⟨payloadOfRow existing, ?_, ?_, ?_⟩
      · rw [hst]
        simp [getAct, hfind2]
      · intro k
        have hg : (payloadOfRow existing).core.sections = q.core.sections := hqsec
        rw [hg]
        exact lookup_eq_of_perm hqp hqnd k
      · have hg : (payloadOfRow existing).core.amendments = existing.amendments := rfl
        rw [hg, hqamend, hamend]
    · -- UPDATE branch: the rewritten row is returned verbatim.
      have hacts : (addOrUpdateAct s p).2.acts = s.acts.map (fun r0 =>
          if r0.act_id == p.core.act_id then rowOf p (generateChecksum p) else r0) := by
        simp [addOrUpdateAct, hf, hc]
      have hpred := List.find?_some hf
      have hcomp : ((fun r : ActRow => r.act_id == p.core.act_id && r.status == "active") ∘
          (fun r0 => if r0.act_id == p.core.act_id then rowOf p (generateChecksum p) else r0)) =
          (fun r : ActRow => r.act_id == p.core.act_id) := by
        funext r
        by_cases hid : r.act_id = p.core.act_id <;> simp [hid, rowOf, hactive]
      refine ⟨payloadOfRow (rowOf p (generateChecksum p)), ?_, fun k => rfl, rfl⟩
      simp only [getAct, hacts, List.find?_map, hcomp, hf, Option.map_some]
      have hfe : (if existing.act_id == p.core.act_id then
          rowOf p (generateChecksum p) else existing) = rowOf p (generateChecksum p) := by
        rw [if_pos hpred]
      have heq : existing.act_id = p.core.act_id := by simpa using hpred
      simp [hfe, heq]

/-- Witness for C7 (amended) on the empty store. -/
theorem claim_C7_witness :
    DBState.consistent DBState.empty ∧
    (sampleAct.core.sections.map Prod.fst).Nodup ∧
    sampleAct.core.status = "active" ∧
    (∃ g : ActData,
      getAct (addOrUpdateAct DBState.empty sampleAct).2 sampleAct.core.act_id = some g ∧
      (∀ k, g.core.sections.lookup k = sampleAct.core.sections.lookup k) ∧
      g.core.amendments = sampleAct.core.amendments) :=
  ⟨consistent_empty, by decide, rfl,
    claim_C7_roundtrip DBState.empty sampleAct consistent_empty (by decide) rfl⟩

/-! ## C2 -/

/-- C2 counterexample: Scenario B's two upserts (v1, then v1 with one
modified section and a bumped version) leave the version history empty —
`add_or_update_act` never invokes `create_version`, and in fact no code
path in the repository does — so `get_version_history` returns 0 entries,
not 2. -/
theorem claim_C2_counterexample :
    (sysUpsert sysEmpty sampleAct).1 = true ∧
    (sysUpsert (sysUpsert sysEmpty sampleAct).2 sampleActV2).1 = true ∧
    getVersionHistory c2System.vc "rti_act_2005" = [] ∧
    (getVersionHistory c2System.vc "rti_act_2005").length ≠ 2 := by
  refine ⟨by decide, by decide, by decide, by decide⟩

/-- C2 (amended): upsert never creates a `VersionRecord`.
`add_or_update_act` touches only the registry store, so an act with no
version history still has none after any two upserts. -/
theorem claim_C2_upsert_creates_no_version (sys : SystemState) (p1 p2 : ActData)
    (a : String) (h : getVersionHistory sys.vc a = []) :
    getVersionHistory ((sysUpsert (sysUpsert sys p1).2 p2).2).vc a = [] := by
  simpa [sysUpsert] using h

/-- Witness for C2 (amended) on the empty system. -/
theorem claim_C2_witness :
    getVersionHistory sysEmpty.vc "rti_act_2005" = [] ∧
    getVersionHistory ((sysUpsert (sysUpsert sysEmpty sampleAct).2 sampleActV2).2).vc
      "rti_act_2005" = [] :=
  ⟨by decide,
    claim_C2_upsert_creates_no_version sysEmpty sampleAct sampleActV2 "rti_act_2005"
      (by decide)⟩

/-! ## C3 -/

/-- Diffing a dict against itself yields no differences. -/
theorem compareSections_self (m : List (String × String))
    (hnd : (m.map Prod.fst).Nodup) : compareSections m m = [] := by
  unfold compareSections
  rw [List.append_eq_nil]
  constructor
  · rw [List.filterMap_eq_nil_iff]
    intro kv hkv
    have hl : m.lookup kv.1 = some kv.2 :=
      lookup_of_mem_nodup hnd (by simpa using hkv)
    simp [diffNewPass, hl]
  · rw [List.filterMap_eq_nil_iff]
    intro kv hkv
    have hl : m.lookup kv.1 = some kv.2 :=
      lookup_of_mem_nodup hnd (by simpa using hkv)
    simp [diffOldPass, hl]

/-- The sections serialization is never the empty string. -/
theorem serializeSections_length_pos (l : List (String × String)) :
    0 < (serializeSections l).length := by
  unfold serializeSections
  rw [String.length_append, String.length_append]
  have h1 : ("\x7b" : String).length = 1 := rfl
  omega

/-- An act compared with itself scores similarity 1. -/
theorem calculateSimilarity_self (a : ActData) : calculateSimilarity a a = 1 := by
  have hpos := serializeSections_length_pos a.core.sections
  simp only [calculateSimilarity]
  rw [if_neg (by omega :
    ¬((serializeSections a.core.sections).length = 0 ∧
      (serializeSections a.core.sections).length = 0))]
  simp only [max_self, min_self]
  rw [if_pos hpos]
  have hne : ((serializeSections a.core.sections).length : ℚ) ≠ 0 := by
    exact_mod_cast Nat.pos_iff_ne_zero.mp hpos
  exact div_self hne

/-- C3 counterexample: `compare_versions` does not diff historical versions.
For act "act1", whose current snapshot is version "1.1" with section S1 =
"B", `compareVersions("act1","1.0","1.1")` resolves BOTH sides from the
current snapshot, so it returns empty differences — not the single
`modified S1 A B` entry the claim requires. -/
theorem claim_C3_counterexample :
    ((compareVersions c3System "act1" "1.0" "1.1" "2025-03-01").1.toOption.map
        Comparison.differences = some []) ∧
    ((compareVersions c3System "act1" "1.0" "1.1" "2025-03-01").1.toOption.map
        Comparison.differences ≠ some [Diff.modified "S1" "A" "B"]) := by
  refine ⟨by decide, by decide⟩

/-- C3 (amended): `_get_act_version` ignores the requested version and
returns the current snapshot for both sides, so for any act that `get_act`
resolves, `compare_versions` on ANY two version labels returns empty
differences and similarity 1. -/
theorem claim_C3_compare_uses_current (sys : SystemState) (a v1 v2 now : String)
    (act : ActData) (hget : getAct sys.db a = some act)
    (hnd : (act.core.sections.map Prod.fst).Nodup) :
    (compareVersions sys a v1 v2 now).1 =
      Except.ok
        { act_id := a, old_version := v1, new_version := v2,
          comparison_date := now, differences := [],
          similarity_score := 1,
          summary := "No differences found between versions" } := by
  simp only [compareVersions, getActVersion, hget]
  rw [compareSections_self _ hnd, calculateSimilarity_self]
  simp [generateComparisonSummary]

/-- Witness for C3 (amended) on Scenario D's store. -/
theorem claim_C3_witness :
    getAct c3System.db "act1" = some (.withCk c3Core (generateChecksum c3Act)) ∧
    (compareVersions c3System "act1" "1.0" "1.1" "2025-03-01").1 =
      Except.ok
        { act_id := "act1", old_version := "1.0", new_version := "1.1",
          comparison_date := "2025-03-01", differences := [],
          similarity_score := 1,
          summary := "No differences found between versions" } :=
  ⟨by decide,
    claim_C3_compare_uses_current c3System "act1" "1.0" "1.1" "2025-03-01"
      (.withCk c3Core (generateChecksum c3Act)) (by decide) (by decide)⟩

/-! ## C8 -/

/-- C8: the staleness gate.  With the act found and its `last_updated`
parsing to `d` days ago: if `d ≤ 30` (e.g. 10) the call performs no fetch
and reports `needs_update = false` together with the day count and current
version; if `d > 30` (e.g. 40) it performs exactly one fetch attempt. -/
theorem claim_C8_staleness_gate (daysSince : String → Option Int)
    (fetch : String → Option ActData) (s : DBState) (a : String)
    (act : ActData) (d : Int)
    (hget : getAct s a = some act)
    (hd : daysSince act.core.last_updated = some d) :
    (d ≤ 30 →
      checkForUpdates daysSince fetch s a = (.fresh a d act.core.version, 0, s)) ∧
    (30 < d → (checkForUpdates daysSince fetch s a).2.1 = 1) := by
  constructor
  · intro h
    simp [checkForUpdates, hget, hd, not_lt.mpr h]
  · intro h
    simp only [checkForUpdates, hget, hd]
    rw [if_pos h]
    rcases hfe : fetch (slugOf a) with _ | x <;>
      simp [fetchAndUpdateAct, hfe]

/-- Witness for C8: the sample act, reported 10 then 40 days old. -/
theorem claim_C8_witness :
    (checkForUpdates daysSince10 fetchNone sampleState1 "rti_act_2005" =
      (.fresh "rti_act_2005" 10 sampleGot.core.version, 0, sampleState1)) ∧
    ((checkForUpdates daysSince40 fetchNone sampleState1 "rti_act_2005").2.1 = 1) :=
  ⟨(claim_C8_staleness_gate daysSince10 fetchNone sampleState1 "rti_act_2005"
      sampleGot 10 (by decide) rfl).1 (by decide),
   (claim_C8_staleness_gate daysSince40 fetchNone sampleState1 "rti_act_2005"
      sampleGot 40 (by decide) rfl).2 (by decide)⟩

/-! ## C6 -/

/-- Any entry emitted by the first loop for a pair carries that pair's key
and is `added` or `modified`. -/
theorem diffNewPass_shape (old : List (String × String)) (kv : String × String)
    (d : Diff) (h : diffNewPass old kv = some d) :
    (∃ o, old.lookup kv.1 = some o ∧ o ≠ kv.2 ∧ d = .modified kv.1 o kv.2) ∨
    (old.lookup kv.1 = none ∧ d = .added kv.1 kv.2) := by
  unfold diffNewPass at h
  split at h
  · rename_i o h0
    split at h
    · rename_i hob
      left
      injection h with h
      exact ⟨o, h0, hob, h.symm⟩
    · exact Option.noConfusion h
  · rename_i h0
    right
    injection h with h
    exact ⟨h0, h.symm⟩

/-- Any entry emitted by the second loop for a pair carries that pair's key
and is `deleted`. -/
theorem diffOldPass_shape (new : List (String × String)) (kv : String × String)
    (d : Diff) (h : diffOldPass new kv = some d) :
    new.lookup kv.1 = none ∧ d = .deleted kv.1 kv.2 := by
  unfold diffOldPass at h
  by_cases hn : (new.lookup kv.1).isNone = true
  · rw [if_pos hn] at h
    simp only [Option.some.injEq] at h
    exact ⟨Option.isNone_iff_eq_none.mp hn, h.symm⟩
  · rw [if_neg hn] at h
    exact Option.noConfusion h

/-- The second loop never emits `added` or `modified` entries. -/
theorem count_added_oldpass (old new : List (String × String)) (k c : String) :
    (old.filterMap (diffOldPass new)).count (Diff.added k c) = 0 := by
  rw [List.count_eq_zero]
  intro hmem
  obtain ⟨kv, _, hd⟩ := List.mem_filterMap.mp hmem
  obtain ⟨_, hd2⟩ := diffOldPass_shape new kv _ hd
  exact Diff.noConfusion hd2

theorem count_modified_oldpass (old new : List (String × String)) (k o c : String) :
    (old.filterMap (diffOldPass new)).count (Diff.modified k o c) = 0 := by
  rw [List.count_eq_zero]
  intro hmem
  obtain ⟨kv, _, hd⟩ := List.mem_filterMap.mp hmem
  obtain ⟨_, hd2⟩ := diffOldPass_shape new kv _ hd
  exact Diff.noConfusion hd2

/-- The first loop never emits `deleted` entries. -/
theorem count_deleted_newpass (old new : List (String × String)) (k o : String) :
    (new.filterMap (diffNewPass old)).count (Diff.deleted k o) = 0 := by
  rw [List.count_eq_zero]
  intro hmem
  obtain ⟨kv, _, hd⟩ := List.mem_filterMap.mp hmem
  rcases diffNewPass_shape old kv _ hd with ⟨_, _, _, hd2⟩ | ⟨_, hd2⟩ <;>
    exact Diff.noConfusion hd2

/-- A key outside the new dict contributes no `added` entry for it. -/
theorem count_added_newpass_zero (old tl : List (String × String)) (k c : String)
    (hk : k ∉ tl.map Prod.fst) :
    (tl.filterMap (diffNewPass old)).count (Diff.added k c) = 0 := by
  rw [List.count_eq_zero]
  intro hmem
  obtain ⟨kv, hkv, hd⟩ := List.mem_filterMap.mp hmem
  rcases diffNewPass_shape old kv _ hd with ⟨o, _, _, hshape⟩ | ⟨_, hshape⟩
  · exact Diff.noConfusion hshape
  · injection hshape with h1 _
    exact hk (h1 ▸ List.mem_map_of_mem Prod.fst hkv)

/-- A key outside the new dict contributes no `modified` entry for it. -/
theorem count_modified_newpass_zero (old tl : List (String × String)) (k o c : String)
    (hk : k ∉ tl.map Prod.fst) :
    (tl.filterMap (diffNewPass old)).count (Diff.modified k o c) = 0 := by
  rw [List.count_eq_zero]
  intro hmem
  obtain ⟨kv, hkv, hd⟩ := List.mem_filterMap.mp hmem
  rcases diffNewPass_shape old kv _ hd with ⟨o0, _, _, hshape⟩ | ⟨_, hshape⟩
  · injection hshape with h1 _
    exact hk (h1 ▸ List.mem_map_of_mem Prod.fst hkv)
  · exact Diff.noConfusion hshape

/-- A key outside the old dict contributes no `deleted` entry for it. -/
theorem count_deleted_oldpass_zero (new tl : List (String × String)) (k o : String)
    (hk : k ∉ tl.map Prod.fst) :
    (tl.filterMap (diffOldPass new)).count (Diff.deleted k o) = 0 := by
  rw [List.count_eq_zero]
  intro hmem
  obtain ⟨kv, hkv, hd⟩ := List.mem_filterMap.mp hmem
  obtain ⟨_, hshape⟩ := diffOldPass_shape new kv _ hd
  injection hshape with h1 _
  exact hk (h1 ▸ List.mem_map_of_mem Prod.fst hkv)

/-- Exactly one `added` entry for each section new-only key. -/
theorem count_added_newpass (old : List (String × String)) :
    ∀ (new : List (String × String)) (k c : String),
      (new.map Prod.fst).Nodup → new.lookup k = some c → old.lookup k = none →
      (new.filterMap (diffNewPass old)).count (Diff.added k c) = 1 := by
  intro new
  induction new with
  | nil =>
    intro k c _ h _
    simp [List.lookup] at h
  | cons kv tl ih =>
    intro k c hnd hlk hold
    obtain ⟨a, b⟩ := kv
    simp only [List.map_cons, List.nodup_cons] at hnd
    rw [List.filterMap_cons]
    by_cases hk : k = a
    · subst hk
      have hb : b = c := by
        simpa [List.lookup] using hlk
      subst hb
      have hdf : diffNewPass old (k, b) = some (.added k b) := by
        simp [diffNewPass, hold]
      rw [hdf]
      simp [List.count_cons, count_added_newpass_zero old tl k b hnd.1]
    · have hka : (k == a) = false := by simpa using hk
      have hlk2 : tl.lookup k = some c := by
        simpa [List.lookup, hka] using hlk
      rcases hdf : diffNewPass old (a, b) with _ | d
      · simpa using ih k c hnd.2 hlk2 hold
      · have hdk : ¬(d = Diff.added k c) := by
          rcases diffNewPass_shape old (a, b) _ hdf with ⟨o, _, _, hshape⟩ | ⟨_, hshape⟩
          · rw [hshape]
            intro hcontra
            exact Diff.noConfusion hcontra
          · rw [hshape]
            intro hcontra
            injection hcontra with h1 _
            exact hk h1.symm
        simp [List.count_cons, hdk, ih k c hnd.2 hlk2 hold]

/-- Exactly one `modified` entry for each key whose content changed. -/
theorem count_modified_newpass (old : List (String × String)) :
    ∀ (new : List (String × String)) (k o c : String),
      (new.map Prod.fst).Nodup → old.lookup k = some o → new.lookup k = some c →
      o ≠ c →
      (new.filterMap (diffNewPass old)).count (Diff.modified k o c) = 1 := by
  intro new
  induction new with
  | nil =>
    intro k o c _ _ h _
    simp [List.lookup] at h
  | cons kv tl ih =>
    intro k o c hnd hold hlk hoc
    obtain ⟨a, b⟩ := kv
    simp only [List.map_cons, List.nodup_cons] at hnd
    rw [List.filterMap_cons]
    by_cases hk : k = a
    · subst hk
      have hb : b = c := by
        simpa [List.lookup] using hlk
      subst hb
      have hdf : diffNewPass old (k, b) = some (.modified k o b) := by
        simp [diffNewPass, hold, hoc]
      rw [hdf]
      simp [List.count_cons, count_modified_newpass_zero old tl k o b hnd.1]
    · have hka : (k == a) = false := by simpa using hk
      have hlk2 : tl.lookup k = some c := by
        simpa [List.lookup, hka] using hlk
      rcases hdf : diffNewPass old (a, b) with _ | d
      · simpa using ih k o c hnd.2 hold hlk2 hoc
      · have hdk : ¬(d = Diff.modified k o c) := by
          rcases diffNewPass_shape old (a, b) _ hdf with ⟨o0, _, _, hshape⟩ | ⟨_, hshape⟩
          · rw [hshape]
            intro hcontra
            injection hcontra with h1 _
            exact hk h1.symm
          · rw [hshape]
            intro hcontra
            exact Diff.noConfusion hcontra
        simp [List.count_cons, hdk, ih k o c hnd.2 hold hlk2 hoc]

/-- Exactly one `deleted` entry for each old-only key. -/
theorem count_deleted_oldpass (new : List (String × String)) :
    ∀ (old : List (String × String)) (k o : String),
      (old.map Prod.fst).Nodup → old.lookup k = some o → new.lookup k = none →
      (old.filterMap (diffOldPass new)).count (Diff.deleted k o) = 1 := by
  intro old
  induction old with
  | nil =>
    intro k o _ h _
    simp [List.lookup] at h
  | cons kv tl ih =>
    intro k o hnd hold hnew
    obtain ⟨a, b⟩ := kv
    simp only [List.map_cons, List.nodup_cons] at hnd
    rw [List.filterMap_cons]
    by_cases hk : k = a
    · subst hk
      have hb : b = o := by
        simpa [List.lookup] using hold
      subst hb
      have hdf : diffOldPass new (k, b) = some (.deleted k b) := by
        simp [diffOldPass, hnew]
      rw [hdf]
      simp [List.count_cons, count_deleted_oldpass_zero new tl k b hnd.1]
    · have hka : (k == a) = false := by simpa using hk
      have hold2 : tl.lookup k = some o := by
        simpa [List.lookup, hka] using hold
      rcases hdf : diffOldPass new (a, b) with _ | d
      · simpa using ih k o hnd.2 hold2 hnew
      · have hdk : ¬(d = Diff.deleted k o) := by
          obtain ⟨_, hshape⟩ := diffOldPass_shape new (a, b) _ hdf
          rw [hshape]
          intro hcontra
          injection hcontra with h1 _
          exact hk h1.symm
        simp [List.count_cons, hdk, ih k o hnd.2 hold2 hnew]

/-- The similarity score is always the min/max length ratio: the two
special branches of `_calculate_similarity` are unreachable because a
serialized sections dict is never the empty string. -/
theorem calculateSimilarity_eq (a b : ActData) :
    calculateSimilarity a b =
      ((min (serializeSections a.core.sections).length
            (serializeSections b.core.sections).length : Nat) : ℚ) /
      ((max (serializeSections a.core.sections).length
            (serializeSections b.core.sections).length : Nat) : ℚ) := by
  have hpa := serializeSections_length_pos a.core.sections
  have hpb := serializeSections_length_pos b.core.sections
  simp only [calculateSimilarity]
  rw [if_neg (by omega :
    ¬((serializeSections a.core.sections).length = 0 ∧
      (serializeSections b.core.sections).length = 0))]
  rw [if_pos (by omega :
    max (serializeSections a.core.sections).length
      (serializeSections b.core.sections).length > 0)]

/-- C6: the diff algorithm and the similarity score behave exactly as
stated.  For any two acts (whose sections dicts, being Python dicts, have
duplicate-free keys): a key in new only gives exactly one `added` entry; a
key in both with changed content gives exactly one `modified` entry with
the old and new content; a key in old only gives exactly one `deleted`
entry; every produced entry is of one of these three mandated forms; and
the similarity score is `min(len(old), len(new)) / max(len(old), len(new))`
over the key-sorted JSON serializations, in particular `1` when both
sections dicts are empty. -/
theorem claim_C6_diff_and_similarity (old_act new_act : ActData)
    (hndo : (old_act.core.sections.map Prod.fst).Nodup)
    (hndn : (new_act.core.sections.map Prod.fst).Nodup) :
    (∀ k c, new_act.core.sections.lookup k = some c →
      old_act.core.sections.lookup k = none →
      (compareSections old_act.core.sections new_act.core.sections).count
        (Diff.added k c) = 1) ∧
    (∀ k o c, old_act.core.sections.lookup k = some o →
      new_act.core.sections.lookup k = some c → o ≠ c →
      (compareSections old_act.core.sections new_act.core.sections).count
        (Diff.modified k o c) = 1) ∧
    (∀ k o, old_act.core.sections.lookup k = some o →
      new_act.core.sections.lookup k = none →
      (compareSections old_act.core.sections new_act.core.sections).count
        (Diff.deleted k o) = 1) ∧
    (∀ d ∈ compareSections old_act.core.sections new_act.core.sections,
      (∃ k c, d = Diff.added k c ∧
        new_act.core.sections.lookup k = some c ∧
        old_act.core.sections.lookup k = none) ∨
      (∃ k o c, d = Diff.modified k o c ∧
        old_act.core.sections.lookup k = some o ∧
        new_act.core.sections.lookup k = some c ∧ o ≠ c) ∨
      (∃ k o, d = Diff.deleted k o ∧
        old_act.core.sections.lookup k = some o ∧
        new_act.core.sections.lookup k = none)) ∧
    (calculateSimilarity old_act new_act =
      ((min (serializeSections old_act.core.sections).length
            (serializeSections new_act.core.sections).length : Nat) : ℚ) /
      ((max (serializeSections old_act.core.sections).length
            (serializeSections new_act.core.sections).length : Nat) : ℚ)) ∧
    (old_act.core.sections = [] → new_act.core.sections = [] →
      calculateSimilarity old_act new_act = 1) := by
  refine ⟨?_, ?_, ?_, ?_, calculateSimilarity_eq old_act new_act, ?_⟩
  · intro k c hn ho
    unfold compareSections
    rw [List.count_append, count_added_newpass old_act.core.sections
      new_act.core.sections k c hndn hn ho,
      count_added_oldpass old_act.core.sections new_act.core.sections k c]
  · intro k o c ho hn hoc
    unfold compareSections
    rw [List.count_append, count_modified_newpass old_act.core.sections
      new_act.core.sections k o c hndn ho hn hoc,
      count_modified_oldpass old_act.core.sections new_act.core.sections k o c]
  · intro k o ho hn
    unfold compareSections
    rw [List.count_append, count_deleted_newpass old_act.core.sections
      new_act.core.sections k o,
      count_deleted_oldpass new_act.core.sections old_act.core.sections k o hndo ho hn]
  · intro d hd
    unfold compareSections at hd
    rcases List.mem_append.mp hd with h1 | h2
    · obtain ⟨kv, hkv, hdf⟩ := List.mem_filterMap.mp h1
      have hnlk : new_act.core.sections.lookup kv.1 = some kv.2 :=
        lookup_of_mem_nodup hndn (by simpa using hkv)
      rcases diffNewPass_shape _ kv _ hdf with ⟨o, ho, hoc, hshape⟩ | ⟨ho, hshape⟩
      · exact Or.inr (Or.inl ⟨kv.1, o, kv.2, hshape, ho, hnlk, hoc⟩)
      · exact Or.inl ⟨kv.1, kv.2, hshape, hnlk, ho⟩
    · obtain ⟨kv, hkv, hdf⟩ := List.mem_filterMap.mp h2
      have holk : old_act.core.sections.lookup kv.1 = some kv.2 :=
        lookup_of_mem_nodup hndo (by simpa using hkv)
      obtain ⟨hn, hshape⟩ := diffOldPass_shape _ kv _ hdf
      exact Or.inr (Or.inr ⟨kv.1, kv.2, hshape, holk, hn⟩)
  · intro ho hn
    rw [calculateSimilarity_eq, ho, hn]
    have h2 : (serializeSections ([] : List (String × String))).length = 2 := by
      decide
    rw [h2]
    norm_num

/-- Witness for C6 on concrete maps: S1 modified from "A" to "B", S2
deleted, S3 added. -/
theorem claim_C6_witness :
    ((c6old.core.sections.map Prod.fst).Nodup) ∧
    ((c6new.core.sections.map Prod.fst).Nodup) ∧
    (compareSections c6old.core.sections c6new.core.sections).count
      (Diff.added "S3" "y") = 1 ∧
    (compareSections c6old.core.sections c6new.core.sections).count
      (Diff.modified "S1" "A" "B") = 1 ∧
    (compareSections c6old.core.sections c6new.core.sections).count
      (Diff.deleted "S2" "x") = 1 :=
  ⟨by decide, by decide,
   (claim_C6_diff_and_similarity c6old c6new (by decide) (by decide)).1
     "S3" "y" (by decide) (by decide),
   (claim_C6_diff_and_similarity c6old c6new (by decide) (by decide)).2.1
     "S1" "A" "B" (by decide) (by decide) (by decide),
   (claim_C6_diff_and_similarity c6old c6new (by decide) (by decide)).2.2.1
     "S2" "x" (by decide) (by decide)⟩

/-! ## C9 -/

/-- Rebuilding a string from its character list is the identity. -/
theorem strMk_data (s : String) : String.mk s.data = s := by
  rcases s with ⟨l⟩
  rfl

/-- `int()` succeeds on a nonempty digit run. -/
theorem pyInt_of_isDigitStr (s : String) (h : isDigitStr s = true) :
    pyInt s = some (digitsToNat s.data) := by
  unfold isDigitStr at h
  unfold pyInt
  rw [if_pos h]

/-- A digit is not the separator dot. -/
theorem isDigit_ne_dot {c : Char} (h : c.isDigit = true) : ¬c = Char.ofNat 46 := by
  intro heq
  subst heq
  exact absurd h (by decide)

/-- A digit run contains no dot. -/
theorem no_dot_of_isDigitStr (s : String) (h : isDigitStr s = true) :
    Char.ofNat 46 ∉ s.data := by
  unfold isDigitStr at h
  intro hmem
  have hall := (Bool.and_eq_true _ _).mp h
  have hdig := (List.all_eq_true.mp hall.2) _ hmem
  exact isDigit_ne_dot hdig rfl

/-- Splitting a separator-free run yields the run alone. -/
theorem splitChar_no_sep (sep : Char) :
    ∀ (l : List Char), sep ∉ l → splitChar sep l = [l] := by
  intro l
  induction l with
  | nil => intro _; rfl
  | cons c tl ih =>
    intro h
    have hc : ¬c = sep := fun hh => h (hh ▸ List.mem_cons_self _ _)
    have htl : sep ∉ tl := fun hh => h (List.mem_cons_of_mem _ hh)
    unfold splitChar
    rw [if_neg hc, ih htl]

/-- Splitting around one separator occurrence. -/
theorem splitChar_around (sep : Char) :
    ∀ (l1 l2 : List Char), sep ∉ l1 →
      splitChar sep (l1 ++ sep :: l2) = l1 :: splitChar sep l2 := by
  intro l1
  induction l1 with
  | nil =>
    intro l2 _
    rw [List.nil_append]
    simp [splitChar]
  | cons c tl ih =>
    intro l2 h
    have hc : ¬c = sep := fun hh => h (hh ▸ List.mem_cons_self _ _)
    have htl : sep ∉ tl := fun hh => h (List.mem_cons_of_mem _ hh)
    have ihh := ih l2 htl
    rw [List.cons_append]
    simp only [splitChar]
    rw [if_neg hc, ihh]

/-- `"y.n".split(".") = [y, n]` for dot-free `y`, `n`. -/
theorem pySplitDot_concat (y z : String)
    (hy : Char.ofNat 46 ∉ y.data) (hz : Char.ofNat 46 ∉ z.data) :
    pySplitDot (y ++ "." ++ z) = [y, z] := by
  unfold pySplitDot
  have hdata : (y ++ "." ++ z).data = y.data ++ Char.ofNat 46 :: z.data := by
    rw [String.data_append, String.data_append]
    rw [show (".".data) = [Char.ofNat 46] from by decide]
    simp
  rw [hdata, splitChar_around _ _ _ hy, splitChar_no_sep _ _ hz]
  simp [strMk_data]

/-- `str(n)` is a nonempty digit run. -/
theorem pyStr_isDigitStr (n : Nat) : isDigitStr (pyStr n) = true := by
  by_cases hn : n = 0
  · subst hn
    decide
  · unfold pyStr
    rw [if_neg hn]
    unfold isDigitStr
    rw [Bool.and_eq_true]
    constructor
    · have hne : Nat.digits 10 n ≠ [] := Nat.digits_ne_nil_iff_ne_zero.mpr hn
      simp [hne]
    · rw [List.all_eq_true]
      intro c hc
      simp only [String.data] at hc
      obtain ⟨d, hd, hdc⟩ := List.mem_map.mp hc
      have hd10 : d < 10 :=
        Nat.digits_lt_base (by norm_num) (List.mem_reverse.mp hd)
      subst hdc
      interval_cases d <;> decide

/-- Bumping the minor component preserves the `<year>.<int>` pattern. -/
theorem versionOk_bump (y : String) (hy : isDigitStr y = true) (n : Nat) :
    versionOk (y ++ "." ++ pyStr n) = true := by
  unfold versionOk
  rw [pySplitDot_concat y (pyStr n) (no_dot_of_isDigitStr y hy)
    (no_dot_of_isDigitStr (pyStr n) (pyStr_isDigitStr n))]
  simp [hy, pyStr_isDigitStr n]

/-- Unpacking `versionOk`. -/
theorem versionOk_parts (v : String) (h : versionOk v = true) :
    ∃ y n, pySplitDot v = [y, n] ∧ isDigitStr y = true ∧ isDigitStr n = true := by
  unfold versionOk at h
  split at h
  · rename_i y n heq
    exact ⟨y, n, heq, (Bool.and_eq_true _ _).mp h⟩
  · exact Bool.noConfusion h

/-- `add_or_update_act` keeps the status/version invariant when the payload
itself satisfies it. -/
theorem upsert_preserves_allWF (s : DBState) (p : ActData)
    (hs : DBState.allWF s) (hp : actWF p) :
    DBState.allWF (addOrUpdateAct s p).2 := by
  rcases hf : s.acts.find? (fun r => r.act_id == p.core.act_id) with _ | existing
  · intro r hr
    have hacts : (addOrUpdateAct s p).2.acts =
        s.acts ++ [rowOf p (generateChecksum p)] := by
      simp [addOrUpdateAct, hf]
    rw [hacts] at hr
    rcases List.mem_append.mp hr with h1 | h2
    · exact hs r h1
    · simp only [List.mem_singleton] at h2
      subst h2
      exact hp
  · by_cases hc : existing.checksum = generateChecksum p
    · have hst : (addOrUpdateAct s p).2 = s := by
        simp [addOrUpdateAct, hf, hc]
      rw [hst]
      exact hs
    · intro r hr
      have hacts : (addOrUpdateAct s p).2.acts = s.acts.map (fun r0 =>
          if r0.act_id == p.core.act_id then rowOf p (generateChecksum p) else r0) := by
        simp [addOrUpdateAct, hf, hc]
      rw [hacts] at hr
      obtain ⟨r0, hr0, hfr⟩ := List.mem_map.mp hr
      by_cases hid : (r0.act_id == p.core.act_id) = true
      · rw [if_pos hid] at hfr
        subst hfr
        exact hp
      · rw [if_neg hid] at hfr
        subst hfr
        exact hs r0 hr0

/-- A dict returned by `get_act` from an invariant-satisfying store itself
satisfies the invariant. -/
theorem getAct_WF (s : DBState) (a : String) (act : ActData)
    (hs : DBState.allWF s) (h : getAct s a = some act) : actWF act := by
  simp only [getAct, Option.map_eq_some'] at h
  obtain ⟨row, hfind, hrow⟩ := h
  have hmem := List.mem_of_find?_eq_some hfind
  have hwf := hs row hmem
  subst hrow
  exact hwf

/-- `_apply_gazette_amendment` keeps the status/version invariant: the
status is carried over and the bumped version is again `<year>.<int>`. -/
theorem gazette_preserves_allWF (s : DBState) (a : GazetteAmendment)
    (hs : DBState.allWF s) :
    DBState.allWF (applyGazetteAmendment s a).2 := by
  rcases hget : getAct s a.act_id with _ | act
  · have hst : (applyGazetteAmendment s a).2 = s := by
      simp [applyGazetteAmendment, hget]
    rw [hst]
    exact hs
  · have hwf := getAct_WF s a.act_id act hs hget
    obtain ⟨y, n, hparts, hy, hn⟩ := versionOk_parts act.core.version hwf.2
    have hlen : (pySplitDot act.core.version).length > 1 := by
      rw [hparts]
      norm_num
    have hget1 : (pySplitDot act.core.version).get
        ⟨1, hlen⟩ = n := by
      simp [hparts]
    have hpy : pyInt n = some (digitsToNat n.data) := pyInt_of_isDigitStr n hn
    have hhead : (pySplitDot act.core.version).headD "" = y := by
      rw [hparts]
      rfl
    have hred : (applyGazetteAmendment s a).2 =
        (addOrUpdateAct s (act.withCore
          { act.core with
              amendments := act.core.amendments ++
                [{ date := a.amendment_date
                   description := a.description
                   notification := a.notification_number
                   sections_affected := some a.sections_affected }]
              last_updated := a.amendment_date
              version := (pySplitDot act.core.version).headD "" ++ "." ++
                pyStr (digitsToNat n.data + 1) })).2 := by
      simp only [applyGazetteAmendment, hget]
      rw [dif_pos hlen]
      rw [hget1, hpy]
    rw [hred]
    refine upsert_preserves_allWF _ _ hs ?_
    have hcore : ∀ c : ActCore, (act.withCore c).core = c := by
      intro c
      cases act <;> rfl
    constructor
    · rw [hcore]
      exact hwf.1
    · rw [hcore]
      simp only
      rw [hhead]
      exact versionOk_bump y hy (digitsToNat n.data + 1)

/-- One priority-update item keeps the invariant when its hard-coded
version matches the pattern. -/
theorem priorityItem_preserves_allWF (s : DBState) (u : PriorityUpdate)
    (hu : versionOk u.version = true) (hs : DBState.allWF s) :
    DBState.allWF (applyPriorityUpdate s u).2 := by
  rcases hget : getAct s u.act_id with _ | act
  · have hst : (applyPriorityUpdate s u).2 = s := by
      simp [applyPriorityUpdate, hget]
    rw [hst]
    exact hs
  · have hwf := getAct_WF s u.act_id act hs hget
    have hred : (applyPriorityUpdate s u).2 =
        (addOrUpdateAct s (act.withCore
          { act.core with
              last_updated := u.last_updated
              version := u.version
              amendments := u.amendments.foldl
                (fun acc na => if na ∈ acc then acc else acc ++ [na])
                act.core.amendments })).2 := by
      simp only [applyPriorityUpdate, hget]
    rw [hred]
    refine upsert_preserves_allWF _ _ hs ?_
    have hcore : ∀ c : ActCore, (act.withCore c).core = c := by
      intro c
      cases act <;> rfl
    constructor
    · rw [hcore]
      exact hwf.1
    · rw [hcore]
      exact hu

/-- `_update_priority_acts` (two hard-coded items, both version "2025.1")
keeps the invariant. -/
theorem priority_preserves_allWF (s : DBState) (hs : DBState.allWF s) :
    DBState.allWF (updatePriorityActs s).2 := by
  have hred : (updatePriorityActs s).2 =
      (applyPriorityUpdate (applyPriorityUpdate s (priorityUpdates.get ⟨0, by decide⟩)).2
        (priorityUpdates.get ⟨1, by decide⟩)).2 := by
    rfl
  rw [hred]
  refine priorityItem_preserves_allWF _ _ (by decide) ?_
  exact priorityItem_preserves_allWF _ _ (by decide) hs

/-- C9 counterexample: upsert accepts payloads violating the invariant —
a single upsert of a payload with status "draft" and version "latest"
stores exactly that row, so the registry-wide invariant fails. -/
theorem claim_C9_counterexample :
    ((runOps DBState.empty [RegistryOp.upsert badAct]).acts.map (fun r => r.status)
      = ["draft"]) ∧
    statusOk "draft" = false ∧
    ((runOps DBState.empty [RegistryOp.upsert badAct]).acts.map (fun r => r.version)
      = ["latest"]) ∧
    versionOk "latest" = false ∧
    ¬DBState.allWF (runOps DBState.empty [RegistryOp.upsert badAct]) := by
  refine ⟨by decide, by decide, by decide, by decide, ?_⟩
  intro h
  have hmem : rowOf badAct (generateChecksum badAct) ∈
      (runOps DBState.empty [RegistryOp.upsert badAct]).acts := by
    decide
  have hbad := (h _ hmem).1
  exact absurd hbad (by decide)

/-- C9 (amended): the invariant `status ∈ {active, repealed, amended}` and
`version` matching `<year>.<int>` is preserved by every sequence of upsert,
gazette-amendment and priority-update operations, PROVIDED each directly
upserted payload itself satisfies it (upsert performs no validation);
gazette amendments and priority updates preserve it unconditionally. -/
theorem claim_C9_invariant_preserved (s : DBState) (ops : List RegistryOp)
    (hs : DBState.allWF s)
    (hops : ∀ p : ActData, RegistryOp.upsert p ∈ ops → actWF p) :
    DBState.allWF (runOps s ops) := by
  induction ops generalizing s with
  | nil => exact hs
  | cons op tl ih =>
    have htl : ∀ p : ActData, RegistryOp.upsert p ∈ tl → actWF p :=
      fun p hp => hops p (List.mem_cons_of_mem _ hp)
    cases op with
    | upsert p =>
      exact ih (addOrUpdateAct s p).2
        (upsert_preserves_allWF s p hs (hops p (List.mem_cons_self _ _))) htl
    | gazette a =>
      exact ih (applyGazetteAmendment s a).2 (gazette_preserves_allWF s a hs) htl
    | priority =>
      exact ih (updatePriorityActs s).2 (priority_preserves_allWF s hs) htl

/-- Witness for C9 (amended): a well-formed upsert followed by a gazette
amendment and a priority pass, from the empty store. -/
theorem claim_C9_witness :
    DBState.allWF DBState.empty ∧
    DBState.allWF (runOps DBState.empty
      [RegistryOp.upsert sampleAct, RegistryOp.gazette sampleGA,
       RegistryOp.priority]) := by
  have hs : DBState.allWF DBState.empty := by
    intro r hr
    simp [DBState.empty] at hr
  refine ⟨hs, ?_⟩
  refine claim_C9_invariant_preserved DBState.empty _ hs ?_
  intro p hp
  simp only [List.mem_cons, List.not_mem_nil, or_false] at hp
  rcases hp with h | h | h
  · injection h with h
    subst h
    exact ⟨by decide, by decide⟩
  · exact RegistryOp.noConfusion h
  · exact RegistryOp.noConfusion h
